import Mathlib

set_option maxHeartbeats 1000000

/-- Directional-pad position, from `enum DPad` in src/main.rs (lines 5-16),
constructors in source order. -/
inductive DPad
  | Released
  | NorthWest
  | West
  | SouthWest
  | South
  | SouthEast
  | East
  | NorthEast
  | North
deriving DecidableEq, Fintype

/-- The `Default` implementation for `DPad` (src/main.rs lines 18-22): `DPad::Released`. -/
def DPad.default : DPad := DPad.Released

/-- Nibble table of `DPad::from_byte` (src/main.rs lines 26-37): the match on `b & 0x0f`.
The panicking arm for nibble values 9-15 is modelled as `none` (a panic aborts the update;
there is no defaulted position). -/
def DPad.decodeNibble : Nat → Option DPad
  | 0x08 => some DPad.Released
  | 0x07 => some DPad.NorthWest
  | 0x06 => some DPad.West
  | 0x05 => some DPad.SouthWest
  | 0x04 => some DPad.South
  | 0x03 => some DPad.SouthEast
  | 0x02 => some DPad.East
  | 0x01 => some DPad.NorthEast
  | 0x00 => some DPad.North
  | _ => none

/-- `DPad::from_byte` (src/main.rs lines 25-38): mask the byte to its low 4 bits,
then look up the nibble table. -/
def DPad.fromByte (b : Nat) : Option DPad := DPad.decodeNibble (b &&& 0x0f)

/-- Nibble value of each pad position, the inverse reading of the table in
`DPad::from_byte`; used to state round-trip invertibility. -/
def DPad.toNibble : DPad → Nat
  | DPad.Released => 0x08
  | DPad.NorthWest => 0x07
  | DPad.West => 0x06
  | DPad.SouthWest => 0x05
  | DPad.South => 0x04
  | DPad.SouthEast => 0x03
  | DPad.East => 0x02
  | DPad.NorthEast => 0x01
  | DPad.North => 0x00

/-- Identities of the fourteen flat (single-bit) buttons tracked by `Controls`
(src/main.rs lines 41-57), in the field order of the struct, pad excluded. -/
inductive Btn
  | triangle
  | circle
  | x
  | square
  | r3
  | l3
  | options
  | share
  | r2
  | l2
  | r1
  | l1
  | tpad
  | ps
deriving DecidableEq, Fintype

/-- One handler invocation observed during `Controls::update`, labelled by what it
reports: a flat button newly set (`pressed`), newly cleared (`released`), or a pad
state change carrying the (old, new) pair handed to the pad handler. -/
inductive Event
  | pressed (b : Btn)
  | released (b : Btn)
  | padMove (o n : DPad)
deriving DecidableEq

/-- Byte offset of the report byte that carries each flat button, read off the masks
used in `Controls::update` (src/main.rs lines 81-95). -/
def Btn.group : Btn → Nat
  | .triangle | .circle | .x | .square => 5
  | .r3 | .l3 | .options | .share | .r2 | .l2 | .r1 | .l1 => 6
  | .tpad | .ps => 7

/-- Byte offset of the report byte an event was derived from (the pad nibble lives in
byte 5). -/
def Event.group : Event → Nat
  | .pressed b => b.group
  | .released b => b.group
  | .padMove _ _ => 5

/-- `Button::update` (src/main.rs lines 149-157). The stored state is the `T` value;
the optional `(old_state, new_state)` pair is the handler invocation performed when the
observed value differs from the stored one (a registered handler is called with exactly
this pair; with no handler the state transition is the same and no call happens). -/
def Button.update {T : Type} [DecidableEq T] (state newState : T) : T × Option (T × T) :=
  if state = newState then (state, none) else (newState, some (state, newState))

/-- Repeated `Button::update` calls on one button over a sequence of observed values,
collecting the handler invocations in order. -/
def Button.run {T : Type} [DecidableEq T] (state : T) : List T → T × List (T × T)
  | [] => (state, [])
  | v :: vs =>
    let u := Button.update state v
    let r := Button.run u.1 vs
    (r.1, (match u.2 with | none => [] | some p => [p]) ++ r.2)

/-- Event emitted by one flat-button handler invocation: the new state decides the
transition kind (old and new always differ when the handler runs). -/
def boolEvent (b : Btn) : Option (Bool × Bool) → List Event
  | none => []
  | some (_, n) => [if n then Event.pressed b else Event.released b]

/-- The `Controls` struct (src/main.rs lines 41-57): stored state of every tracked
control. The handler slots are not part of the state; invocations are reported in
`UpdateResult.events`. -/
structure Controls where
  triangle : Bool
  circle : Bool
  x : Bool
  square : Bool
  dpad : DPad
  r3 : Bool
  l3 : Bool
  options : Bool
  share : Bool
  r2 : Bool
  l2 : Bool
  r1 : Bool
  l1 : Bool
  tpad : Bool
  ps : Bool
deriving DecidableEq

/-- `Controls::new` (src/main.rs lines 60-78): every button starts at its type's
default, `false` for flat buttons and `DPad::Released` for the pad. -/
def Controls.new : Controls :=
  { triangle := false
    circle := false
    x := false
    square := false
    dpad := DPad.default
    r3 := false
    l3 := false
    options := false
    share := false
    r2 := false
    l2 := false
    r1 := false
    l1 := false
    tpad := false
    ps := false }

/-- Outcome of one `Controls::update` call: the controls state afterwards, the handler
invocations in call order, and whether the call aborted in `DPad::from_byte`
(`panicked = true` means the pad nibble was invalid; the source unwinds at that point,
so the fields updated before the pad keep their new values and the rest keep their old
ones, and only the events emitted before the abort happened). -/
structure UpdateResult where
  controls : Controls
  events : List Event
  panicked : Bool
deriving DecidableEq

/-- Body of `Controls::update` (src/main.rs lines 80-96) applied to the three report
bytes it reads (`b5 = report[5]`, `b6 = report[6]`, `b7 = report[7]`), one
`Button::update` call per line in source order. -/
def Controls.updateBytes (c : Controls) (b5 b6 b7 : Nat) : UpdateResult :=
  let tU := Button.update c.triangle (decide (b5 &&& 0x80 > 0))
  let cU := Button.update c.circle (decide (b5 &&& 0x40 > 0))
  let xU := Button.update c.x (decide (b5 &&& 0x20 > 0))
  let sU := Button.update c.square (decide (b5 &&& 0x10 > 0))
  let evs5 := boolEvent Btn.triangle tU.2 ++ boolEvent Btn.circle cU.2 ++
              boolEvent Btn.x xU.2 ++ boolEvent Btn.square sU.2
  match DPad.fromByte b5 with
  | none =>
      { controls := { c with triangle := tU.1, circle := cU.1, x := xU.1, square := sU.1 }
        events := evs5
        panicked := true }
  | some dv =>
      let dU := Button.update c.dpad dv
      let evsD := match dU.2 with | none => [] | some p => [Event.padMove p.1 p.2]
      let r3U := Button.update c.r3 (decide (b6 &&& 0x80 > 0))
      let l3U := Button.update c.l3 (decide (b6 &&& 0x40 > 0))
      let opU := Button.update c.options (decide (b6 &&& 0x20 > 0))
      let shU := Button.update c.share (decide (b6 &&& 0x10 > 0))
      let r2U := Button.update c.r2 (decide (b6 &&& 0x08 > 0))
      let l2U := Button.update c.l2 (decide (b6 &&& 0x04 > 0))
      let r1U := Button.update c.r1 (decide (b6 &&& 0x02 > 0))
      let l1U := Button.update c.l1 (decide (b6 &&& 0x01 > 0))
      let tpU := Button.update c.tpad (decide (b7 &&& 0x02 > 0))
      let psU := Button.update c.ps (decide (b7 &&& 0x01 > 0))
      { controls :=
          { triangle := tU.1, circle := cU.1, x := xU.1, square := sU.1, dpad := dU.1
            r3 := r3U.1, l3 := l3U.1, options := opU.1, share := shU.1, r2 := r2U.1
            l2 := l2U.1, r1 := r1U.1, l1 := l1U.1, tpad := tpU.1, ps := psU.1 }
        events := evs5 ++ evsD ++
                  boolEvent Btn.r3 r3U.2 ++ boolEvent Btn.l3 l3U.2 ++
                  boolEvent Btn.options opU.2 ++ boolEvent Btn.share shU.2 ++
                  boolEvent Btn.r2 r2U.2 ++ boolEvent Btn.l2 l2U.2 ++
                  boolEvent Btn.r1 r1U.2 ++ boolEvent Btn.l1 l1U.2 ++
                  boolEvent Btn.tpad tpU.2 ++ boolEvent Btn.ps psU.2
        panicked := false }

/-- `Controls::update` on a raw report (the 64-byte buffer of `Controller::update`,
src/main.rs line 117, modelled as a list of byte values): the body reads bytes 5, 6
and 7. Indexing is modelled totally here via `getD`; that every access is in bounds
for the actual report is settled through `Controls.update?`. -/
def Controls.update (c : Controls) (report : List Nat) : UpdateResult :=
  Controls.updateBytes c (report.getD 5 0) (report.getD 6 0) (report.getD 7 0)

/-- `Controls::update` with the slice-indexing checks explicit: `none` models an
out-of-bounds index abort. Bytes 6 and 7 are only read after the pad decode succeeds,
matching the statement order of the source (the pad abort happens before any
`report[6]` access); the panicking branch of `Controls.updateBytes` never reads its
last two arguments. -/
def Controls.update? (c : Controls) (report : List Nat) : Option UpdateResult :=
  match report[5]? with
  | none => none
  | some b5 =>
    if (DPad.fromByte b5).isSome then
      match report[6]?, report[7]? with
      | some b6, some b7 => some (Controls.updateBytes c b5 b6 b7)
      | _, _ => none
    else
      some (Controls.updateBytes c b5 0 0)

/-- The (mask, button) pairs read from report byte 5 by `Controls::update`, in call
order. -/
def tbl5 : List (Nat × Btn) :=
  [(0x80, Btn.triangle), (0x40, Btn.circle), (0x20, Btn.x), (0x10, Btn.square)]

/-- The (mask, button) pairs read from report byte 6 by `Controls::update`, in call
order. -/
def tbl6 : List (Nat × Btn) :=
  [(0x80, Btn.r3), (0x40, Btn.l3), (0x20, Btn.options), (0x10, Btn.share),
   (0x08, Btn.r2), (0x04, Btn.l2), (0x02, Btn.r1), (0x01, Btn.l1)]

/-- The (mask, button) pairs read from report byte 7 by `Controls::update`, in call
order. -/
def tbl7 : List (Nat × Btn) :=
  [(0x02, Btn.tpad), (0x01, Btn.ps)]

/-- One row of the flat bit-mapping table: byte offset, bitmask, button. -/
structure MaskEntry where
  offset : Nat
  mask : Nat
  btn : Btn
deriving DecidableEq

/-- The full flat bit-mapping table of `Controls::update`, grouped by byte offset in
ascending order. -/
def flatMasks : List MaskEntry :=
  (tbl5.map fun mb => ⟨5, mb.1, mb.2⟩) ++
  (tbl6.map fun mb => ⟨6, mb.1, mb.2⟩) ++
  (tbl7.map fun mb => ⟨7, mb.1, mb.2⟩)

/-- Flat-button events one diff pass emits for one byte, in the fixed order of the
mask table: one `Button::update` per row, previous state assumed in sync with `p`. -/
def groupEvents (p q : Nat) : List (Nat × Btn) → List Event
  | [] => []
  | mb :: rest =>
      boolEvent mb.2 (Button.update (decide (p &&& mb.1 > 0)) (decide (q &&& mb.1 > 0))).2 ++
      groupEvents p q rest

/-- Population count of `p ^^^ q` restricted to the given bit positions. -/
def bitsChanged (p q : Nat) (bits : List Nat) : Nat :=
  (bits.filter fun k => (p ^^^ q).testBit k).length

lemma Button.update_fst {T : Type} [DecidableEq T] (s v : T) : (Button.update s v).1 = v := by
  by_cases h : s = v <;> simp [Button.update, h]

lemma decide_and_two_pow (p k : Nat) : decide (p &&& 2 ^ k > 0) = p.testBit k := by
  cases h : p.testBit k
  · simp [Nat.and_two_pow, h]
  · simp [Nat.and_two_pow, h, Nat.two_pow_pos]

lemma decide_and_mask (p k m : Nat) (hm : m = 2 ^ k) : decide (p &&& m > 0) = p.testBit k := by
  subst hm; exact decide_and_two_pow p k

lemma DPad.fromByte_and (b : Nat) : DPad.fromByte (b &&& 0x0f) = DPad.fromByte b := by
  unfold DPad.fromByte
  rw [Nat.and_assoc, Nat.and_self]

lemma DPad.fromByte_eq_none_iff (b : Nat) : DPad.fromByte b = none ↔ 9 ≤ b &&& 0x0f := by
  have h15 : b &&& 0x0f ≤ 15 := Nat.and_le_right
  unfold DPad.fromByte
  generalize hm : b &&& 0x0f = m
  rw [hm] at h15
  interval_cases m <;> decide

lemma DPad.fromByte_isSome_of_le (b : Nat) (h : b &&& 0x0f ≤ 8) :
    ∃ d, DPad.fromByte b = some d := by
  cases hd : DPad.fromByte b with
  | none => rw [DPad.fromByte_eq_none_iff] at hd; omega
  | some d => exact ⟨d, rfl⟩

lemma Controls.updateBytes_controls_valid (c : Controls) (b5 b6 b7 : Nat) (d : DPad)
    (hd : DPad.fromByte b5 = some d) :
    (Controls.updateBytes c b5 b6 b7).controls =
      { triangle := decide (b5 &&& 0x80 > 0), circle := decide (b5 &&& 0x40 > 0),
        x := decide (b5 &&& 0x20 > 0), square := decide (b5 &&& 0x10 > 0), dpad := d,
        r3 := decide (b6 &&& 0x80 > 0), l3 := decide (b6 &&& 0x40 > 0),
        options := decide (b6 &&& 0x20 > 0), share := decide (b6 &&& 0x10 > 0),
        r2 := decide (b6 &&& 0x08 > 0), l2 := decide (b6 &&& 0x04 > 0),
        r1 := decide (b6 &&& 0x02 > 0), l1 := decide (b6 &&& 0x01 > 0),
        tpad := decide (b7 &&& 0x02 > 0), ps := decide (b7 &&& 0x01 > 0) } := by
  unfold Controls.updateBytes
  rw [hd]
  simp [Button.update_fst]

lemma Controls.update_update_events (c0 : Controls) (p5 p6 p7 q5 q6 q7 : Nat)
    (dp dq : DPad) (hp : DPad.fromByte p5 = some dp) (hq : DPad.fromByte q5 = some dq) :
    (Controls.updateBytes (Controls.updateBytes c0 p5 p6 p7).controls q5 q6 q7).events =
      groupEvents p5 q5 tbl5 ++ (if dp = dq then [] else [Event.padMove dp dq]) ++
      groupEvents p6 q6 tbl6 ++ groupEvents p7 q7 tbl7 := by
  rw [Controls.updateBytes_controls_valid c0 p5 p6 p7 dp hp]
  unfold Controls.updateBytes
  rw [hq]
  by_cases hdq : dp = dq <;>
    simp [groupEvents, tbl5, tbl6, tbl7, Button.update, hdq, List.append_assoc]

lemma decide_and_0x80 (p : Nat) : decide (p &&& 0x80 > 0) = p.testBit 7 :=
  decide_and_mask p 7 0x80 (by norm_num)

lemma decide_and_0x40 (p : Nat) : decide (p &&& 0x40 > 0) = p.testBit 6 :=
  decide_and_mask p 6 0x40 (by norm_num)

lemma decide_and_0x20 (p : Nat) : decide (p &&& 0x20 > 0) = p.testBit 5 :=
  decide_and_mask p 5 0x20 (by norm_num)

lemma decide_and_0x10 (p : Nat) : decide (p &&& 0x10 > 0) = p.testBit 4 :=
  decide_and_mask p 4 0x10 (by norm_num)

lemma decide_and_0x08 (p : Nat) : decide (p &&& 0x08 > 0) = p.testBit 3 :=
  decide_and_mask p 3 0x08 (by norm_num)

lemma decide_and_0x04 (p : Nat) : decide (p &&& 0x04 > 0) = p.testBit 2 :=
  decide_and_mask p 2 0x04 (by norm_num)

lemma decide_and_0x02 (p : Nat) : decide (p &&& 0x02 > 0) = p.testBit 1 :=
  decide_and_mask p 1 0x02 (by norm_num)

lemma decide_and_0x01 (p : Nat) : decide (p &&& 0x01 > 0) = p.testBit 0 :=
  decide_and_mask p 0 0x01 (by norm_num)

lemma groupEvents_nil (p q : Nat) : groupEvents p q [] = [] := rfl

lemma bitsChanged_nil (p q : Nat) : bitsChanged p q [] = 0 := rfl

lemma groupEvents_length_cons (p q : Nat) (mb : Nat × Btn) (rest : List (Nat × Btn)) :
    (groupEvents p q (mb :: rest)).length =
      (if decide (p &&& mb.1 > 0) = decide (q &&& mb.1 > 0) then 0 else 1) +
        (groupEvents p q rest).length := by
  by_cases h : decide (p &&& mb.1 > 0) = decide (q &&& mb.1 > 0) <;>
    simp [groupEvents, Button.update, boolEvent, h, Nat.add_comm]

lemma bitsChanged_cons (p q k : Nat) (bits : List Nat) :
    bitsChanged p q (k :: bits) =
      (if p.testBit k = q.testBit k then 0 else 1) + bitsChanged p q bits := by
  simp only [bitsChanged, List.filter, Nat.testBit_xor]
  cases hp : p.testBit k <;> cases hq : q.testBit k <;> simp [Nat.add_comm]

lemma groupEvents_length_tbl5 (p q : Nat) :
    (groupEvents p q tbl5).length = bitsChanged p q [7, 6, 5, 4] := by
  simp only [tbl5, groupEvents_length_cons, bitsChanged_cons, decide_and_0x80,
    decide_and_0x40, decide_and_0x20, decide_and_0x10, groupEvents_nil, bitsChanged_nil,
    List.length_nil]

lemma groupEvents_length_tbl6 (p q : Nat) :
    (groupEvents p q tbl6).length = bitsChanged p q [7, 6, 5, 4, 3, 2, 1, 0] := by
  simp only [tbl6, groupEvents_length_cons, bitsChanged_cons, decide_and_0x80,
    decide_and_0x40, decide_and_0x20, decide_and_0x10, decide_and_0x08, decide_and_0x04,
    decide_and_0x02, decide_and_0x01, groupEvents_nil, bitsChanged_nil, List.length_nil]

lemma groupEvents_length_tbl7 (p q : Nat) :
    (groupEvents p q tbl7).length = bitsChanged p q [1, 0] := by
  simp only [tbl7, groupEvents_length_cons, bitsChanged_cons, decide_and_0x02,
    decide_and_0x01, groupEvents_nil, bitsChanged_nil, List.length_nil]

lemma group_of_mem_boolEvent (b : Btn) (o : Option (Bool × Bool)) (e : Event)
    (he : e ∈ boolEvent b o) : Event.group e = b.group := by
  rcases o with _ | pr
  · simp [boolEvent] at he
  · simp [boolEvent] at he
    subst he
    cases pr.2 <;> simp [Event.group]

lemma groupEvents_group (p q : Nat) (tbl : List (Nat × Btn)) (g : Nat)
    (h : ∀ mb ∈ tbl, Btn.group mb.2 = g) : ∀ e ∈ groupEvents p q tbl, Event.group e = g := by
  induction tbl with
  | nil => simp [groupEvents]
  | cons mb rest ih =>
    intro e he
    rw [groupEvents, List.mem_append] at he
    rcases he with he | he
    · rw [group_of_mem_boolEvent _ _ _ he]
      exact h mb (List.mem_cons_self _ _)
    · exact ih (fun mb' hm => h mb' (List.mem_cons_of_mem _ hm)) e he

/-- C3: for every byte whose low 4 bits are in 9-15 the pad decode fails (the source
panics there, modelled as `none`; no position is silently defaulted), and for every
byte whose low 4 bits are in 0-8 it never fails. -/
theorem C3_pad_decode_failure (b : Nat) :
    (DPad.fromByte b = none ↔ 9 ≤ b &&& 0x0f) ∧
    ((DPad.fromByte b).isSome ↔ b &&& 0x0f ≤ 8) := by
  refine ⟨DPad.fromByte_eq_none_iff b, ?_⟩
  rw [Option.isSome_iff_ne_none, ne_eq, DPad.fromByte_eq_none_iff]
  omega

/-- C5: restricted to nibble values 0-8, pad decoding is a bijection onto the nine
positions: `toNibble` is a two-sided inverse, decoding is injective on 0-8, and the
decode depends only on the low 4 bits of its input byte. -/
theorem C5_pad_decode_bijection :
    (∀ d : DPad, DPad.fromByte (DPad.toNibble d) = some d ∧ DPad.toNibble d ≤ 8) ∧
    (∀ n : Fin 9, ∃ d : DPad, DPad.fromByte n.val = some d ∧ DPad.toNibble d = n.val) ∧
    (∀ n m : Fin 9, DPad.fromByte n.val = DPad.fromByte m.val → n = m) ∧
    (∀ b : Nat, DPad.fromByte b = DPad.fromByte (b &&& 0x0f)) := by
  refine ⟨by decide, by decide, by decide, fun b => (DPad.fromByte_and b).symm⟩

lemma Button.update_same {T : Type} [DecidableEq T] (v : T) :
    Button.update v v = (v, none) := by
  simp [Button.update]

lemma Controls.updateBytes_idem (c : Controls) (b5 b6 b7 : Nat) :
    Controls.updateBytes (Controls.updateBytes c b5 b6 b7).controls b5 b6 b7 =
      { controls := (Controls.updateBytes c b5 b6 b7).controls
        events := []
        panicked := (Controls.updateBytes c b5 b6 b7).panicked } := by
  cases hd : DPad.fromByte b5 with
  | none =>
    simp [Controls.updateBytes, hd, Button.update_fst, Button.update_same, boolEvent]
  | some d =>
    rw [Controls.updateBytes_controls_valid c b5 b6 b7 d hd]
    simp [Controls.updateBytes, hd, Button.update, boolEvent]

/-- C8: updating twice with the same report is idempotent: the second derivation from
report X, after the stored state has absorbed X, invokes no handler and leaves the
stored control state unchanged. -/
theorem C8_same_report_no_events (c0 : Controls) (X : List Nat) :
    (Controls.update (Controls.update c0 X).controls X).events = [] ∧
    (Controls.update (Controls.update c0 X).controls X).controls =
      (Controls.update c0 X).controls := by
  unfold Controls.update
  rw [Controls.updateBytes_idem]
  exact ⟨rfl, rfl⟩

/-- C4 counterexample: nibble 0 decodes to North, but the initial control state of
`Controls::new` holds pad position Released (the `Default` of `DPad`), not North, so
the first poll with byte 5 = 0b10000100 emits a pad transition from Released, not from
North. -/
theorem C4_counterexample :
    DPad.fromByte 0 = some DPad.North ∧
    Controls.new.dpad ≠ DPad.North ∧
    Event.padMove DPad.North DPad.South ∉
      (Controls.update Controls.new ((List.replicate 64 0).set 5 0x84)).events := by
  decide

/-- C4 amended: the control state before the first poll is the per-type default - every
flat button false and the pad Released - so a first poll of a 64-byte report with
byte 5 = 0b10000100 yields exactly Pressed(Triangle) and one pad transition event from
Released to South. -/
theorem C4_initial_state_first_poll :
    Controls.new.dpad = DPad.Released ∧
    (Controls.update Controls.new ((List.replicate 64 0).set 5 0x84)).events =
      [Event.pressed Btn.triangle, Event.padMove DPad.Released DPad.South] ∧
    (Controls.update Controls.new ((List.replicate 64 0).set 5 0x84)).panicked = false := by
  decide

/-- C2 counterexample: a 64-byte report with pad nibble 9 (byte 5 = 0x09) and byte 6 =
0x01, polled from the startup state: byte 6 bit 0 is a valid L1 press transition, but
the update aborts in the pad decode and emits no event for it. -/
theorem C2_counterexample :
    (Controls.update Controls.new (((List.replicate 64 0).set 5 0x09).set 6 0x01)).panicked
        = true ∧
    Controls.new.l1 = false ∧
    (0x01 &&& (0x01 : Nat) > 0) ∧
    Event.pressed Btn.l1 ∉
      (Controls.update Controls.new (((List.replicate 64 0).set 5 0x09).set 6 0x01)).events ∧
    (Controls.update Controls.new (((List.replicate 64 0).set 5 0x09).set 6 0x01)).controls.l1
        = false := by
  decide

/-- C2 amended: when the report carries a pad nibble in 9-15, the update panics in the
pad decode: the failure is surfaced (`panicked = true`), the byte-5 flat-button handler
calls made before the pad decode still happen (every emitted event belongs to byte
group 5), and every byte-6 and byte-7 control keeps its previous state - their
transitions are suppressed, not emitted. -/
theorem C2_pad_failure_suppresses_later_groups (c : Controls) (b5 b6 b7 : Nat)
    (h : 9 ≤ b5 &&& 0x0f) :
    (Controls.updateBytes c b5 b6 b7).panicked = true ∧
    (∀ e ∈ (Controls.updateBytes c b5 b6 b7).events, Event.group e = 5) ∧
    (Controls.updateBytes c b5 b6 b7).controls.triangle = decide (b5 &&& 0x80 > 0) ∧
    (Controls.updateBytes c b5 b6 b7).controls.circle = decide (b5 &&& 0x40 > 0) ∧
    (Controls.updateBytes c b5 b6 b7).controls.x = decide (b5 &&& 0x20 > 0) ∧
    (Controls.updateBytes c b5 b6 b7).controls.square = decide (b5 &&& 0x10 > 0) ∧
    (Controls.updateBytes c b5 b6 b7).controls.dpad = c.dpad ∧
    (Controls.updateBytes c b5 b6 b7).controls.r3 = c.r3 ∧
    (Controls.updateBytes c b5 b6 b7).controls.l3 = c.l3 ∧
    (Controls.updateBytes c b5 b6 b7).controls.options = c.options ∧
    (Controls.updateBytes c b5 b6 b7).controls.share = c.share ∧
    (Controls.updateBytes c b5 b6 b7).controls.r2 = c.r2 ∧
    (Controls.updateBytes c b5 b6 b7).controls.l2 = c.l2 ∧
    (Controls.updateBytes c b5 b6 b7).controls.r1 = c.r1 ∧
    (Controls.updateBytes c b5 b6 b7).controls.l1 = c.l1 ∧
    (Controls.updateBytes c b5 b6 b7).controls.tpad = c.tpad ∧
    (Controls.updateBytes c b5 b6 b7).controls.ps = c.ps := by
  have hd : DPad.fromByte b5 = none := (DPad.fromByte_eq_none_iff b5).mpr h
  refine ⟨?_, ?_, ?_⟩
  · simp [Controls.updateBytes, hd]
  · intro e he
    simp only [Controls.updateBytes, hd] at he
    simp only [List.mem_append] at he
    rcases he with ((he | he) | he) | he <;>
      exact group_of_mem_boolEvent _ _ _ he
  · simp [Controls.updateBytes, hd, Button.update_fst]

/-- C2 witness: the amended theorem applied at the counterexample input. -/
theorem C2_pad_failure_witness :
    (Controls.updateBytes Controls.new 0x09 0x01 0x00).panicked = true ∧
    (∀ e ∈ (Controls.updateBytes Controls.new 0x09 0x01 0x00).events, Event.group e = 5) ∧
    (Controls.updateBytes Controls.new 0x09 0x01 0x00).controls.triangle
        = decide (0x09 &&& (0x80 : Nat) > 0) ∧
    (Controls.updateBytes Controls.new 0x09 0x01 0x00).controls.circle
        = decide (0x09 &&& (0x40 : Nat) > 0) ∧
    (Controls.updateBytes Controls.new 0x09 0x01 0x00).controls.x
        = decide (0x09 &&& (0x20 : Nat) > 0) ∧
    (Controls.updateBytes Controls.new 0x09 0x01 0x00).controls.square
        = decide (0x09 &&& (0x10 : Nat) > 0) ∧
    (Controls.updateBytes Controls.new 0x09 0x01 0x00).controls.dpad = Controls.new.dpad ∧
    (Controls.updateBytes Controls.new 0x09 0x01 0x00).controls.r3 = Controls.new.r3 ∧
    (Controls.updateBytes Controls.new 0x09 0x01 0x00).controls.l3 = Controls.new.l3 ∧
    (Controls.updateBytes Controls.new 0x09 0x01 0x00).controls.options
        = Controls.new.options ∧
    (Controls.updateBytes Controls.new 0x09 0x01 0x00).controls.share = Controls.new.share ∧
    (Controls.updateBytes Controls.new 0x09 0x01 0x00).controls.r2 = Controls.new.r2 ∧
    (Controls.updateBytes Controls.new 0x09 0x01 0x00).controls.l2 = Controls.new.l2 ∧
    (Controls.updateBytes Controls.new 0x09 0x01 0x00).controls.r1 = Controls.new.r1 ∧
    (Controls.updateBytes Controls.new 0x09 0x01 0x00).controls.l1 = Controls.new.l1 ∧
    (Controls.updateBytes Controls.new 0x09 0x01 0x00).controls.tpad = Controls.new.tpad ∧
    (Controls.updateBytes Controls.new 0x09 0x01 0x00).controls.ps = Controls.new.ps :=
  C2_pad_failure_suppresses_later_groups Controls.new 0x09 0x01 0x00 (by decide)

/-- C1 counterexample: prev byte 6 = 0x80 (R3 held), curr byte 6 = 0x01 (L1 held) -
two flat bits of the byte-6 group differ, yet the emitted events for the poll are
Released(R3) followed by Pressed(L1): a Released event precedes a Pressed event of the
same byte group, refuting the all-Pressed-before-all-Released ordering. -/
theorem C1_counterexample :
    (Controls.updateBytes (Controls.updateBytes Controls.new 0 0x80 0).controls
        0 0x01 0).events = [Event.released Btn.r3, Event.pressed Btn.l1] ∧
    2 ≤ bitsChanged 0x80 0x01 [7, 6, 5, 4, 3, 2, 1, 0] := by
  decide

/-- C1 amended: for every pair of reports with valid pad nibbles, the events of a poll
are the byte-5 group, then the pad event, then the byte-6 group, then the byte-7 group
(ascending byte offset), each group emitted in the fixed per-button order of its mask
table (descending bit position, Pressed and Released interleaved by bit, not
Pressed-first); the number of flat-button events per group equals the population count
of prev XOR curr restricted to the group's flat-button bits. -/
theorem C1_group_order_and_count (c0 : Controls) (p5 p6 p7 q5 q6 q7 : Nat) (dp dq : DPad)
    (hp : DPad.fromByte p5 = some dp) (hq : DPad.fromByte q5 = some dq) :
    (Controls.updateBytes (Controls.updateBytes c0 p5 p6 p7).controls q5 q6 q7).events =
      groupEvents p5 q5 tbl5 ++ (if dp = dq then [] else [Event.padMove dp dq]) ++
      groupEvents p6 q6 tbl6 ++ groupEvents p7 q7 tbl7 ∧
    (groupEvents p5 q5 tbl5).length = bitsChanged p5 q5 [7, 6, 5, 4] ∧
    (groupEvents p6 q6 tbl6).length = bitsChanged p6 q6 [7, 6, 5, 4, 3, 2, 1, 0] ∧
    (groupEvents p7 q7 tbl7).length = bitsChanged p7 q7 [1, 0] ∧
    (∀ e ∈ groupEvents p5 q5 tbl5, Event.group e = 5) ∧
    (∀ e ∈ groupEvents p6 q6 tbl6, Event.group e = 6) ∧
    (∀ e ∈ groupEvents p7 q7 tbl7, Event.group e = 7) :=
  ⟨Controls.update_update_events c0 p5 p6 p7 q5 q6 q7 dp dq hp hq,
   groupEvents_length_tbl5 p5 q5, groupEvents_length_tbl6 p6 q6,
   groupEvents_length_tbl7 p7 q7,
   groupEvents_group p5 q5 tbl5 5 (by decide), groupEvents_group p6 q6 tbl6 6 (by decide),
   groupEvents_group p7 q7 tbl7 7 (by decide)⟩

/-- C1 witness: the amended theorem applied at the counterexample bytes. -/
theorem C1_group_order_witness :
    (Controls.updateBytes (Controls.updateBytes Controls.new 0 0x80 0).controls
        0 0x01 0).events =
      groupEvents 0 0 tbl5 ++
      (if DPad.North = DPad.North then [] else [Event.padMove DPad.North DPad.North]) ++
      groupEvents 0x80 0x01 tbl6 ++ groupEvents 0 0 tbl7 ∧
    (groupEvents 0 0 tbl5).length = bitsChanged 0 0 [7, 6, 5, 4] ∧
    (groupEvents 0x80 0x01 tbl6).length = bitsChanged 0x80 0x01 [7, 6, 5, 4, 3, 2, 1, 0] ∧
    (groupEvents 0 0 tbl7).length = bitsChanged 0 0 [1, 0] ∧
    (∀ e ∈ groupEvents 0 0 tbl5, Event.group e = 5) ∧
    (∀ e ∈ groupEvents 0x80 0x01 tbl6, Event.group e = 6) ∧
    (∀ e ∈ groupEvents 0 0 tbl7, Event.group e = 7) :=
  C1_group_order_and_count Controls.new 0 0x80 0 0 0x01 0 DPad.North DPad.North
    (by decide) (by decide)

lemma groupEvents_append (p q : Nat) (t1 t2 : List (Nat × Btn)) :
    groupEvents p q (t1 ++ t2) = groupEvents p q t1 ++ groupEvents p q t2 := by
  induction t1 with
  | nil => rfl
  | cons mb rest ih => simp [groupEvents, ih]

lemma groupEvents_nil_of_eq (p q : Nat) (tbl : List (Nat × Btn))
    (h : ∀ mb ∈ tbl, decide (p &&& mb.1 > 0) = decide (q &&& mb.1 > 0)) :
    groupEvents p q tbl = [] := by
  induction tbl with
  | nil => rfl
  | cons mb rest ih =>
    have h1 := h mb (List.mem_cons_self _ _)
    have h2 := ih fun mb' hm => h mb' (List.mem_cons_of_mem _ hm)
    simp [groupEvents, Button.update, h1, h2, boolEvent]

lemma groupEvents_single (p q : Nat) (l1 l2 : List (Nat × Btn)) (m : Nat) (b : Btn)
    (h1 : ∀ mb ∈ l1, decide (p &&& mb.1 > 0) = decide (q &&& mb.1 > 0))
    (h2 : ∀ mb ∈ l2, decide (p &&& mb.1 > 0) = decide (q &&& mb.1 > 0))
    (hne : decide (p &&& m > 0) ≠ decide (q &&& m > 0)) :
    groupEvents p q (l1 ++ (m, b) :: l2) =
      [if decide (q &&& m > 0) then Event.pressed b else Event.released b] := by
  rw [groupEvents_append, groupEvents_nil_of_eq p q l1 h1]
  simp [groupEvents, Button.update, hne, boolEvent, groupEvents_nil_of_eq p q l2 h2]

/-- Report byte carrying a given tracked offset, used to state single-bit-flip
hypotheses uniformly over the mask table. -/
def byteAt (b5 b6 b7 : Nat) : Nat → Nat :=
  fun i => if i = 5 then b5 else if i = 6 then b6 else b7

lemma byteAt_5 (b5 b6 b7 : Nat) : byteAt b5 b6 b7 5 = b5 := rfl

lemma byteAt_6 (b5 b6 b7 : Nat) : byteAt b5 b6 b7 6 = b6 := rfl

lemma byteAt_7 (b5 b6 b7 : Nat) : byteAt b5 b6 b7 7 = b7 := rfl

lemma mem_flatMasks_5 (mb : Nat × Btn) (h : mb ∈ tbl5) :
    (⟨5, mb.1, mb.2⟩ : MaskEntry) ∈ flatMasks := by
  simp only [flatMasks, List.mem_append, List.mem_map]
  exact Or.inl (Or.inl ⟨mb, h, rfl⟩)

lemma mem_flatMasks_6 (mb : Nat × Btn) (h : mb ∈ tbl6) :
    (⟨6, mb.1, mb.2⟩ : MaskEntry) ∈ flatMasks := by
  simp only [flatMasks, List.mem_append, List.mem_map]
  exact Or.inl (Or.inr ⟨mb, h, rfl⟩)

lemma mem_flatMasks_7 (mb : Nat × Btn) (h : mb ∈ tbl7) :
    (⟨7, mb.1, mb.2⟩ : MaskEntry) ∈ flatMasks := by
  simp only [flatMasks, List.mem_append, List.mem_map]
  exact Or.inr ⟨mb, h, rfl⟩

lemma ne_of_mem_of_not_mem_cons {α : Type} {b : α} {l1 : List α} {l2 : List α}
    (hnd : (l1 ++ b :: l2).Nodup) : (∀ x ∈ l1, x ≠ b) ∧ (∀ x ∈ l2, x ≠ b) := by
  rw [List.nodup_append] at hnd
  obtain ⟨-, hnd2, hdisj⟩ := hnd
  refine ⟨fun x hx heq => hdisj hx (heq ▸ List.mem_cons_self b l2), ?_⟩
  intro x hx heq
  exact (List.nodup_cons.mp hnd2).1 (heq ▸ hx)

/-- C7: when exactly one tracked flat-button bit differs between the previous and the
current report (pads equal and valid), the poll emits exactly one event: Pressed of
the button mapped to that bit when the bit rose, Released of it when the bit fell, and
nothing else. -/
theorem C7_single_bit_flip (c0 : Controls) (p5 p6 p7 q5 q6 q7 : Nat) (e : MaskEntry)
    (hmem : e ∈ flatMasks)
    (hp : p5 &&& 0x0f ≤ 8) (hpad : q5 &&& 0x0f = p5 &&& 0x0f)
    (hothers : ∀ e' ∈ flatMasks, e' ≠ e →
      decide (byteAt p5 p6 p7 e'.offset &&& e'.mask > 0) =
        decide (byteAt q5 q6 q7 e'.offset &&& e'.mask > 0))
    (hflip : decide (byteAt p5 p6 p7 e.offset &&& e.mask > 0) ≠
      decide (byteAt q5 q6 q7 e.offset &&& e.mask > 0)) :
    (Controls.updateBytes (Controls.updateBytes c0 p5 p6 p7).controls q5 q6 q7).events =
      [if decide (byteAt q5 q6 q7 e.offset &&& e.mask > 0) then Event.pressed e.btn
       else Event.released e.btn] := by
  obtain ⟨dp, hdp⟩ := DPad.fromByte_isSome_of_le p5 hp
  have hdq : DPad.fromByte q5 = some dp := by
    rw [← DPad.fromByte_and q5, hpad, DPad.fromByte_and p5]
    exact hdp
  rw [Controls.update_update_events c0 p5 p6 p7 q5 q6 q7 dp dp hdp hdq, if_pos rfl]
  simp only [flatMasks, List.mem_append, List.mem_map] at hmem
  rcases hmem with (⟨mb, hmb, rfl⟩ | ⟨mb, hmb, rfl⟩) | ⟨mb, hmb, rfl⟩ <;>
    obtain ⟨m, bt⟩ := mb
  · -- the flipped bit lives in byte 5
    dsimp only at hflip ⊢
    simp only [byteAt_5] at hflip ⊢
    have h6 : ∀ mb' ∈ tbl6, decide (p6 &&& mb'.1 > 0) = decide (q6 &&& mb'.1 > 0) := by
      intro mb' hm'
      have h := hothers ⟨6, mb'.1, mb'.2⟩ (mem_flatMasks_6 mb' hm')
        (by simp [MaskEntry.mk.injEq])
      simpa [byteAt] using h
    have h7 : ∀ mb' ∈ tbl7, decide (p7 &&& mb'.1 > 0) = decide (q7 &&& mb'.1 > 0) := by
      intro mb' hm'
      have h := hothers ⟨7, mb'.1, mb'.2⟩ (mem_flatMasks_7 mb' hm')
        (by simp [MaskEntry.mk.injEq])
      simpa [byteAt] using h
    obtain ⟨l1, l2, htbl⟩ := List.append_of_mem hmb
    have hnd : (l1 ++ (m, bt) :: l2).Nodup := by
      rw [← htbl]; decide
    obtain ⟨hne1, hne2⟩ := ne_of_mem_of_not_mem_cons hnd
    have hsame : ∀ mb' ∈ tbl5, mb' ≠ (m, bt) →
        decide (p5 &&& mb'.1 > 0) = decide (q5 &&& mb'.1 > 0) := by
      intro mb' hm' hne
      have h := hothers ⟨5, mb'.1, mb'.2⟩ (mem_flatMasks_5 mb' hm')
        (by
          intro heq
          apply hne
          have h1 := (MaskEntry.mk.injEq _ _ _ _ _ _).mp heq
          exact Prod.ext h1.2.1 h1.2.2)
      simpa [byteAt] using h
    have h5a : ∀ mb' ∈ l1, decide (p5 &&& mb'.1 > 0) = decide (q5 &&& mb'.1 > 0) :=
      fun mb' hm' => hsame mb' (htbl ▸ List.mem_append_left _ hm') (hne1 mb' hm')
    have h5b : ∀ mb' ∈ l2, decide (p5 &&& mb'.1 > 0) = decide (q5 &&& mb'.1 > 0) :=
      fun mb' hm' => hsame mb'
        (htbl ▸ List.mem_append_right _ (List.mem_cons_of_mem _ hm')) (hne2 mb' hm')
    rw [htbl, groupEvents_single p5 q5 l1 l2 m bt h5a h5b hflip,
      groupEvents_nil_of_eq p6 q6 tbl6 h6, groupEvents_nil_of_eq p7 q7 tbl7 h7]
    simp
  · -- the flipped bit lives in byte 6
    dsimp only at hflip ⊢
    simp only [byteAt_6] at hflip ⊢
    have h5 : ∀ mb' ∈ tbl5, decide (p5 &&& mb'.1 > 0) = decide (q5 &&& mb'.1 > 0) := by
      intro mb' hm'
      have h := hothers ⟨5, mb'.1, mb'.2⟩ (mem_flatMasks_5 mb' hm')
        (by simp [MaskEntry.mk.injEq])
      simpa [byteAt] using h
    have h7 : ∀ mb' ∈ tbl7, decide (p7 &&& mb'.1 > 0) = decide (q7 &&& mb'.1 > 0) := by
      intro mb' hm'
      have h := hothers ⟨7, mb'.1, mb'.2⟩ (mem_flatMasks_7 mb' hm')
        (by simp [MaskEntry.mk.injEq])
      simpa [byteAt] using h
    obtain ⟨l1, l2, htbl⟩ := List.append_of_mem hmb
    have hnd : (l1 ++ (m, bt) :: l2).Nodup := by
      rw [← htbl]; decide
    obtain ⟨hne1, hne2⟩ := ne_of_mem_of_not_mem_cons hnd
    have hsame : ∀ mb' ∈ tbl6, mb' ≠ (m, bt) →
        decide (p6 &&& mb'.1 > 0) = decide (q6 &&& mb'.1 > 0) := by
      intro mb' hm' hne
      have h := hothers ⟨6, mb'.1, mb'.2⟩ (mem_flatMasks_6 mb' hm')
        (by
          intro heq
          apply hne
          have h1 := (MaskEntry.mk.injEq _ _ _ _ _ _).mp heq
          exact Prod.ext h1.2.1 h1.2.2)
      simpa [byteAt] using h
    have h6a : ∀ mb' ∈ l1, decide (p6 &&& mb'.1 > 0) = decide (q6 &&& mb'.1 > 0) :=
      fun mb' hm' => hsame mb' (htbl ▸ List.mem_append_left _ hm') (hne1 mb' hm')
    have h6b : ∀ mb' ∈ l2, decide (p6 &&& mb'.1 > 0) = decide (q6 &&& mb'.1 > 0) :=
      fun mb' hm' => hsame mb'
        (htbl ▸ List.mem_append_right _ (List.mem_cons_of_mem _ hm')) (hne2 mb' hm')
    rw [htbl, groupEvents_single p6 q6 l1 l2 m bt h6a h6b hflip,
      groupEvents_nil_of_eq p5 q5 tbl5 h5, groupEvents_nil_of_eq p7 q7 tbl7 h7]
    simp
  · -- the flipped bit lives in byte 7
    dsimp only at hflip ⊢
    simp only [byteAt_7] at hflip ⊢
    have h5 : ∀ mb' ∈ tbl5, decide (p5 &&& mb'.1 > 0) = decide (q5 &&& mb'.1 > 0) := by
      intro mb' hm'
      have h := hothers ⟨5, mb'.1, mb'.2⟩ (mem_flatMasks_5 mb' hm')
        (by simp [MaskEntry.mk.injEq])
      simpa [byteAt] using h
    have h6 : ∀ mb' ∈ tbl6, decide (p6 &&& mb'.1 > 0) = decide (q6 &&& mb'.1 > 0) := by
      intro mb' hm'
      have h := hothers ⟨6, mb'.1, mb'.2⟩ (mem_flatMasks_6 mb' hm')
        (by simp [MaskEntry.mk.injEq])
      simpa [byteAt] using h
    obtain ⟨l1, l2, htbl⟩ := List.append_of_mem hmb
    have hnd : (l1 ++ (m, bt) :: l2).Nodup := by
      rw [← htbl]; decide
    obtain ⟨hne1, hne2⟩ := ne_of_mem_of_not_mem_cons hnd
    have hsame : ∀ mb' ∈ tbl7, mb' ≠ (m, bt) →
        decide (p7 &&& mb'.1 > 0) = decide (q7 &&& mb'.1 > 0) := by
      intro mb' hm' hne
      have h := hothers ⟨7, mb'.1, mb'.2⟩ (mem_flatMasks_7 mb' hm')
        (by
          intro heq
          apply hne
          have h1 := (MaskEntry.mk.injEq _ _ _ _ _ _).mp heq
          exact Prod.ext h1.2.1 h1.2.2)
      simpa [byteAt] using h
    have h7a : ∀ mb' ∈ l1, decide (p7 &&& mb'.1 > 0) = decide (q7 &&& mb'.1 > 0) :=
      fun mb' hm' => hsame mb' (htbl ▸ List.mem_append_left _ hm') (hne1 mb' hm')
    have h7b : ∀ mb' ∈ l2, decide (p7 &&& mb'.1 > 0) = decide (q7 &&& mb'.1 > 0) :=
      fun mb' hm' => hsame mb'
        (htbl ▸ List.mem_append_right _ (List.mem_cons_of_mem _ hm')) (hne2 mb' hm')
    rw [htbl, groupEvents_single p7 q7 l1 l2 m bt h7a h7b hflip,
      groupEvents_nil_of_eq p5 q5 tbl5 h5, groupEvents_nil_of_eq p6 q6 tbl6 h6]
    simp

/-- C7 witness: the single-flip theorem at prev bytes (0,0,0), curr bytes (0,0x02,0),
the bit of R1: the poll emits exactly Pressed(R1). -/
theorem C7_single_bit_flip_witness :
    (Controls.updateBytes (Controls.updateBytes Controls.new 0 0 0).controls
        0 0x02 0).events =
      [if decide (byteAt 0 0x02 0 6 &&& 0x02 > 0) then Event.pressed Btn.r1
       else Event.released Btn.r1] :=
  C7_single_bit_flip Controls.new 0 0 0 0 0x02 0 ⟨6, 0x02, Btn.r1⟩ (by decide) (by decide)
    (by decide) (by decide) (by decide)

/-- C9: the bit-to-button mapping matches the fixed protocol layout: in byte 5 bits 7-4
are Triangle, Circle, X, Square and the low nibble drives the pad; in byte 6 bits 7
down to 0 are R3, L3, Options, Share, R2, L2, R1, L1; in byte 7 bit 1 is Touchpad and
bit 0 the PS button; within each byte the flat masks are pairwise disjoint and the
byte-5 flat masks avoid the pad nibble. -/
theorem C9_bit_mapping (c : Controls) (b5 b6 b7 : Nat) (h : b5 &&& 0x0f ≤ 8) :
    ((Controls.updateBytes c b5 b6 b7).controls.triangle = b5.testBit 7 ∧
     (Controls.updateBytes c b5 b6 b7).controls.circle = b5.testBit 6 ∧
     (Controls.updateBytes c b5 b6 b7).controls.x = b5.testBit 5 ∧
     (Controls.updateBytes c b5 b6 b7).controls.square = b5.testBit 4 ∧
     (Controls.updateBytes c b5 b6 b7).controls.r3 = b6.testBit 7 ∧
     (Controls.updateBytes c b5 b6 b7).controls.l3 = b6.testBit 6 ∧
     (Controls.updateBytes c b5 b6 b7).controls.options = b6.testBit 5 ∧
     (Controls.updateBytes c b5 b6 b7).controls.share = b6.testBit 4 ∧
     (Controls.updateBytes c b5 b6 b7).controls.r2 = b6.testBit 3 ∧
     (Controls.updateBytes c b5 b6 b7).controls.l2 = b6.testBit 2 ∧
     (Controls.updateBytes c b5 b6 b7).controls.r1 = b6.testBit 1 ∧
     (Controls.updateBytes c b5 b6 b7).controls.l1 = b6.testBit 0 ∧
     (Controls.updateBytes c b5 b6 b7).controls.tpad = b7.testBit 1 ∧
     (Controls.updateBytes c b5 b6 b7).controls.ps = b7.testBit 0) ∧
    (∃ d, DPad.fromByte b5 = some d ∧ (Controls.updateBytes c b5 b6 b7).controls.dpad = d) ∧
    (∀ e1 ∈ flatMasks, ∀ e2 ∈ flatMasks, e1.offset = e2.offset → e1 ≠ e2 →
      e1.mask &&& e2.mask = 0) ∧
    (∀ e ∈ flatMasks, e.offset = 5 → e.mask &&& 0x0f = 0) := by
  obtain ⟨d, hd⟩ := DPad.fromByte_isSome_of_le b5 h
  rw [Controls.updateBytes_controls_valid c b5 b6 b7 d hd]
  refine ⟨?_, ⟨d, hd, rfl⟩, by decide, by decide⟩
  simp [decide_and_0x80, decide_and_0x40, decide_and_0x20, decide_and_0x10,
    decide_and_0x08, decide_and_0x04, decide_and_0x02, decide_and_0x01]
  omega

/-- C9 witness: the mapping theorem at the all-zero bytes. -/
theorem C9_bit_mapping_witness :
    ((Controls.updateBytes Controls.new 0 0 0).controls.triangle = Nat.testBit 0 7 ∧
     (Controls.updateBytes Controls.new 0 0 0).controls.circle = Nat.testBit 0 6 ∧
     (Controls.updateBytes Controls.new 0 0 0).controls.x = Nat.testBit 0 5 ∧
     (Controls.updateBytes Controls.new 0 0 0).controls.square = Nat.testBit 0 4 ∧
     (Controls.updateBytes Controls.new 0 0 0).controls.r3 = Nat.testBit 0 7 ∧
     (Controls.updateBytes Controls.new 0 0 0).controls.l3 = Nat.testBit 0 6 ∧
     (Controls.updateBytes Controls.new 0 0 0).controls.options = Nat.testBit 0 5 ∧
     (Controls.updateBytes Controls.new 0 0 0).controls.share = Nat.testBit 0 4 ∧
     (Controls.updateBytes Controls.new 0 0 0).controls.r2 = Nat.testBit 0 3 ∧
     (Controls.updateBytes Controls.new 0 0 0).controls.l2 = Nat.testBit 0 2 ∧
     (Controls.updateBytes Controls.new 0 0 0).controls.r1 = Nat.testBit 0 1 ∧
     (Controls.updateBytes Controls.new 0 0 0).controls.l1 = Nat.testBit 0 0 ∧
     (Controls.updateBytes Controls.new 0 0 0).controls.tpad = Nat.testBit 0 1 ∧
     (Controls.updateBytes Controls.new 0 0 0).controls.ps = Nat.testBit 0 0) ∧
    (∃ d, DPad.fromByte 0 = some d ∧
      (Controls.updateBytes Controls.new 0 0 0).controls.dpad = d) ∧
    (∀ e1 ∈ flatMasks, ∀ e2 ∈ flatMasks, e1.offset = e2.offset → e1 ≠ e2 →
      e1.mask &&& e2.mask = 0) ∧
    (∀ e ∈ flatMasks, e.offset = 5 → e.mask &&& 0x0f = 0) :=
  C9_bit_mapping Controls.new 0 0 0 (by decide)

/-- C6: for every control type, every start state and every sequence of observed
values, the handler invocations of the repeated `Button::update` calls are exactly the
consecutive (previous value, new value) pairs of the observed sequence that differ -
invoked if and only if the value changed since last observed, exactly once per change,
with that pair - and the stored state ends at the last observed value. -/
theorem C6_handler_iff_change {T : Type} [DecidableEq T] (s : T) (vs : List T) :
    (Button.run s vs).2 = ((s :: vs).zip vs).filter (fun p => decide (p.1 ≠ p.2)) ∧
    (Button.run s vs).1 = vs.getLastD s := by
  induction vs generalizing s with
  | nil => exact ⟨rfl, rfl⟩
  | cons v rest ih =>
    obtain ⟨ih1, ih2⟩ := ih v
    constructor
    · by_cases h : s = v <;>
        simp [Button.run, Button.update, h, ih1, List.zip_cons_cons, List.filter_cons]
    · simp only [Button.run, Button.update_fst, ih2, List.getLastD_cons]

lemma Controls.updateBytes_none_drops (c : Controls) (b5 b6 b7 b6' b7' : Nat)
    (hd : DPad.fromByte b5 = none) :
    Controls.updateBytes c b5 b6 b7 = Controls.updateBytes c b5 b6' b7' := by
  simp [Controls.updateBytes, hd]

lemma List.getElem?_eq_some_getD (r : List Nat) (i : Nat) (h : i < r.length) :
    r[i]? = some (r.getD i 0) := by
  rw [List.getElem?_eq_getElem h]
  congr 1
  rw [List.getD_eq_getElem?_getD, List.getElem?_eq_getElem h]
  rfl

lemma Controls.update?_eq_update (c : Controls) (r : List Nat) (h : 8 ≤ r.length) :
    Controls.update? c r = some (Controls.update c r) := by
  have e5 := List.getElem?_eq_some_getD r 5 (by omega)
  have e6 := List.getElem?_eq_some_getD r 6 (by omega)
  have e7 := List.getElem?_eq_some_getD r 7 (by omega)
  unfold Controls.update? Controls.update
  rw [e5]
  by_cases hpad : (DPad.fromByte (r.getD 5 0)).isSome
  · simp only [if_pos hpad]
    rw [e6, e7]
  · simp only [if_neg hpad]
    have hdn : DPad.fromByte (r.getD 5 0) = none := Option.not_isSome_iff_eq_none.mp hpad
    rw [Controls.updateBytes_none_drops c _ 0 0 (r.getD 6 0) (r.getD 7 0) hdn]

/-- C10: update depends only on report bytes 5, 6 and 7 - two reports of length at
least 8 that agree there produce, from the same control state, the same resulting
state, the same handler invocations and the same panic outcome - and for a 64-byte
report every byte access of the update is in bounds (the checked-indexing update
returns a result rather than an out-of-bounds abort, and it agrees with the total
model). -/
theorem C10_depends_only_on_bytes_567 :
    (∀ (c : Controls) (r1 r2 : List Nat), 8 ≤ r1.length → 8 ≤ r2.length →
      r1.getD 5 0 = r2.getD 5 0 → r1.getD 6 0 = r2.getD 6 0 → r1.getD 7 0 = r2.getD 7 0 →
      Controls.update? c r1 = Controls.update? c r2) ∧
    (∀ (c : Controls) (r : List Nat), r.length = 64 →
      Controls.update? c r = some (Controls.update c r)) := by
  constructor
  · intro c r1 r2 h1 h2 e5 e6 e7
    rw [Controls.update?_eq_update c r1 h1, Controls.update?_eq_update c r2 h2]
    unfold Controls.update
    rw [e5, e6, e7]
  · intro c r h
    exact Controls.update?_eq_update c r (by omega)

/-- C10 witness: a 64-byte all-zero report and a length-8 report that differs at
offsets 0-4 but agrees at offsets 5, 6, 7 give the same update result, and the checked
update succeeds on the 64-byte report. -/
theorem C10_depends_only_witness :
    Controls.update? Controls.new (List.replicate 64 0) =
      Controls.update? Controls.new [9, 9, 9, 9, 9, 0, 0, 0] ∧
    Controls.update? Controls.new (List.replicate 64 0) =
      some (Controls.update Controls.new (List.replicate 64 0)) :=
  ⟨C10_depends_only_on_bytes_567.1 Controls.new (List.replicate 64 0)
      [9, 9, 9, 9, 9, 0, 0, 0] (by decide) (by decide) (by decide) (by decide) (by decide),
   C10_depends_only_on_bytes_567.2 Controls.new (List.replicate 64 0) (by decide)⟩

/-- C3 witness: the failure classification applied at byte 9 (nibble 9, invalid). -/
theorem C3_pad_decode_failure_witness :
    (DPad.fromByte 9 = none ↔ 9 ≤ 9 &&& 0x0f) ∧
    ((DPad.fromByte 9).isSome ↔ 9 &&& 0x0f ≤ 8) :=
  C3_pad_decode_failure 9

/-- C5 witness: the round trip applied at the South position. -/
theorem C5_pad_decode_bijection_witness :
    DPad.fromByte (DPad.toNibble DPad.South) = some DPad.South ∧
    DPad.toNibble DPad.South ≤ 8 :=
  C5_pad_decode_bijection.1 DPad.South

/-- C6 witness: the dispatch contract applied to one Bool button over the observation
sequence false, true, true, false. -/
theorem C6_handler_iff_change_witness :
    (Button.run false [true, true, false]).2 =
      ((false :: [true, true, false]).zip [true, true, false]).filter
        (fun p => decide (p.1 ≠ p.2)) ∧
    (Button.run false [true, true, false]).1 = [true, true, false].getLastD false :=
  C6_handler_iff_change false [true, true, false]

/-- C8 witness: idempotence applied at a concrete 64-byte report with byte 5 = 0x84. -/
theorem C8_same_report_witness :
    (Controls.update
        (Controls.update Controls.new ((List.replicate 64 0).set 5 0x84)).controls
        ((List.replicate 64 0).set 5 0x84)).events = [] ∧
    (Controls.update
        (Controls.update Controls.new ((List.replicate 64 0).set 5 0x84)).controls
        ((List.replicate 64 0).set 5 0x84)).controls =
      (Controls.update Controls.new ((List.replicate 64 0).set 5 0x84)).controls :=
  C8_same_report_no_events Controls.new ((List.replicate 64 0).set 5 0x84)
